import Mathlib

/-
Verification of the DataConsumer core against its specification.

Shallow embedding conventions:
* Timestamps and durations are nanoseconds, as integers (Go time.Time /
  time.Duration store int64 nanoseconds).  One second is 1000000000 ns.
* Go float64 arithmetic is embedded as exact rational arithmetic over the
  mathematical values; the conversion float64 -> int64 (used by
  time.Duration(...) and int64(...)) truncates toward zero, embedded by
  ratTrunc below.
* Byte counters are unbounded integers; the int64 wraparound regime (more
  than 2^63 accumulated bytes) is outside the scope of the statements.
* The background goroutines (the 10 s metrics ticker and the worker loops)
  are embedded by making each ticker wake-up an explicit event; any
  interleaving of atomic AddBytes calls and ticks is a list of events,
  because every AddBytes is a single indivisible atomic add and every tick
  body runs under the collector mutex.
* File logging (EnableFileLogging / logFile / enableLogging) is pure I/O
  that touches none of the fields the claims are about, and is omitted.
-/

namespace DataConsumer

/-- Truncation of a rational toward zero: the value Go produces when
converting a (finite, in-range) float64 to int64 or time.Duration. -/
def ratTrunc (q : ℚ) : ℤ := if q < 0 then ⌈q⌉ else ⌊q⌋

/-- The last n entries of a list, in order (used to state the FIFO
rate-history property). -/
def takeLast {α : Type} (n : ℕ) (l : List α) : List α := l.drop (l.length - n)

/-! ## internal/metrics/metrics.go -/

/-- RatePoint from metrics.go: a rate measurement at a specific time.
The RateMBPS field holds MB/minute, exactly as stored by the source. -/
structure RatePoint where
  Timestamp : ℤ
  RateMBPS : ℚ
deriving DecidableEq

/-- Stats from metrics.go: the snapshot returned by GetStats.
ElapsedTime is in nanoseconds. -/
structure Stats where
  BytesTransferred : ℤ
  ElapsedTime : ℤ
  StartTime : ℤ
  CurrentRate : ℚ
  PeakRate : ℚ
  AverageRate : ℚ
  TotalMegabytes : ℚ
  RateHistory : List RatePoint
  LastUpdated : ℤ
deriving DecidableEq

/-- Collector from metrics.go.  The mutex is implicit (each operation is one
atomic step of the event semantics); logFile/enableLogging are omitted as
pure I/O.  samplersLaunched is a ghost field counting executions of the
statement `go m.sampleMetrics()`, so that the claim that Start launches no
second sampler is statable. -/
structure Collector where
  bytesTransferred : ℤ
  startTime : ℤ
  lastSample : ℤ
  lastBytes : ℤ
  running : Bool
  peakRate : ℚ
  rateHistory : List RatePoint
  historyLimit : ℕ
  samplersLaunched : ℕ
deriving DecidableEq

/-- NewCollector from metrics.go: historyLimit 60, everything else zero
(Go zero values). -/
def NewCollector : Collector :=
  { bytesTransferred := 0
  , startTime := 0
  , lastSample := 0
  , lastBytes := 0
  , running := false
  , peakRate := 0
  , rateHistory := []
  , historyLimit := 60
  , samplersLaunched := 0 }

/-- Collector.Start from metrics.go: if not running, reset all counters,
set running and launch the background sampler; otherwise do nothing. -/
def Collector.Start (m : Collector) (now : ℤ) : Collector :=
  if m.running then m
  else
    { m with
      startTime := now
      , lastSample := now
      , bytesTransferred := 0
      , lastBytes := 0
      , peakRate := 0
      , rateHistory := []
      , running := true
      , samplersLaunched := m.samplersLaunched + 1 }

/-- Collector.AddBytes from metrics.go: a single atomic add to the counter. -/
def Collector.AddBytes (m : Collector) (bytes : ℤ) : Collector :=
  { m with bytesTransferred := m.bytesTransferred + bytes }

/-- One wake-up of the sampleMetrics loop from metrics.go, at time now.
Returns the new collector state and the rate point recorded by this tick,
if any (none when the collector is stopped or timeDelta is not positive). -/
def Collector.sampleMetricsTick (m : Collector) (now : ℤ) :
    Collector × Option RatePoint :=
  if m.running then
    let currentBytes := m.bytesTransferred
    let bytesDelta := currentBytes - m.lastBytes
    let timeDelta : ℚ := ((now - m.lastSample : ℤ) : ℚ) / 1000000000
    if 0 < timeDelta then
      let rateMBPS : ℚ := (bytesDelta : ℚ) / timeDelta / 1024 / 1024
      let point : RatePoint := { Timestamp := now, RateMBPS := rateMBPS * 60 }
      let hist :=
        if m.historyLimit ≤ m.rateHistory.length then m.rateHistory.tail
        else m.rateHistory
      let peak :=
        if m.peakRate < rateMBPS * 60 then rateMBPS * 60 else m.peakRate
      ({ m with
          rateHistory := hist ++ [point]
          , peakRate := peak
          , lastSample := now
          , lastBytes := currentBytes }, some point)
    else (m, none)
  else (m, none)

/-- Collector.GetStats from metrics.go, at time now. -/
def Collector.GetStats (m : Collector) (now : ℤ) : Stats :=
  let currentBytes := m.bytesTransferred
  let elapsed : ℤ := now - m.startTime
  let elapsedSeconds : ℚ := (elapsed : ℚ) / 1000000000
  let elapsedMinutes : ℚ := (elapsed : ℚ) / 60000000000
  let currentRate : ℚ :=
    if 0 < m.rateHistory.length then
      ((m.rateHistory.getLast?).getD { Timestamp := 0, RateMBPS := 0 }).RateMBPS
    else if 0 < elapsedSeconds then
      (currentBytes : ℚ) / elapsedSeconds * 60 / 1024 / 1024
    else 0
  let averageRate : ℚ :=
    if 0 < elapsedMinutes then
      (currentBytes : ℚ) / 1024 / 1024 / elapsedMinutes
    else 0
  { BytesTransferred := currentBytes
  , ElapsedTime := elapsed
  , StartTime := m.startTime
  , CurrentRate := currentRate
  , PeakRate := m.peakRate
  , AverageRate := averageRate
  , TotalMegabytes := (currentBytes : ℚ) / 1024 / 1024
  , RateHistory := m.rateHistory
  , LastUpdated := now }

/-- An atomic step of the collector after Start: either a worker's AddBytes
call or a wake-up of the background sampler at a given time. -/
inductive CEvent where
  | add (n : ℤ)
  | tick (now : ℤ)

/-- Apply one event to the collector state. -/
def stepEv (m : Collector) : CEvent → Collector
  | CEvent.add n => m.AddBytes n
  | CEvent.tick now => (m.sampleMetricsTick now).1

/-- Apply one event to the collector state while also logging every rate
point the sampler records (ghost log used to state the history claims). -/
def stepLog (x : Collector × List RatePoint) : CEvent → Collector × List RatePoint
  | CEvent.add n => (x.1.AddBytes n, x.2)
  | CEvent.tick now =>
      ((x.1.sampleMetricsTick now).1, x.2 ++ ((x.1.sampleMetricsTick now).2).toList)

/-- Run a sequence of events. -/
def runEvents (m : Collector) (evs : List CEvent) : Collector :=
  evs.foldl stepEv m

/-- Run a sequence of events, carrying the ghost log of recorded samples. -/
def runEventsLog (x : Collector × List RatePoint) (evs : List CEvent) :
    Collector × List RatePoint :=
  evs.foldl stepLog x

/-! ## RateLimiter (src/unnamed/part_001) -/

/-- RateLimiter from the consumer package: target in bytes/second, window
start timestamp (lastCheck, ns) and bytes seen in the current window. -/
structure RateLimiter where
  targetBytesPerSecond : ℤ
  lastCheck : ℤ
  bytesThisPeriod : ℤ
deriving DecidableEq

/-- NewRateLimiter: converts MB/minute to bytes/second with Go integer
division (truncation toward zero). -/
def NewRateLimiter (targetMBPerMinute : ℤ) (now : ℤ) : RateLimiter :=
  { targetBytesPerSecond := Int.tdiv (targetMBPerMinute * 1024 * 1024) 60
  , lastCheck := now
  , bytesThisPeriod := 0 }

/-- RateLimiter.Allow, at time now: returns the wait duration (ns) and the
new limiter state.

Faithfulness caveat: when targetBytesPerSecond = 0 the Go source divides by
zero in float64 (yielding +Inf, whose conversion to time.Duration is
implementation-dependent per the Go specification); this embedding is
faithful only for targetBytesPerSecond ≠ 0 on the branch that computes
sleepTime, and for float64 values inside the int64 range. -/
def RateLimiter.Allow (r : RateLimiter) (bytes : ℤ) (now : ℤ) :
    ℤ × RateLimiter :=
  let elapsed : ℤ := now - r.lastCheck
  if 1000000000 < elapsed then
    (0, { r with bytesThisPeriod := 0, lastCheck := now })
  else
    let bytesThisPeriod := r.bytesThisPeriod + bytes
    let elapsedSeconds : ℚ := (elapsed : ℚ) / 1000000000
    let allowedBytes : ℤ :=
      ratTrunc ((r.targetBytesPerSecond : ℚ) * elapsedSeconds)
    if allowedBytes < bytesThisPeriod then
      let excessBytes := bytesThisPeriod - allowedBytes
      let sleepTime : ℤ :=
        ratTrunc ((excessBytes : ℚ) / (r.targetBytesPerSecond : ℚ) * 1000000000)
      (if 500000000 < sleepTime then 500000000 else sleepTime,
        { r with bytesThisPeriod := bytesThisPeriod })
    else
      (0, { r with bytesThisPeriod := bytesThisPeriod })

/-! ## Consumer construction (src/unnamed/part_001) and configs/config.go -/

/-- Config from configs/config.go. -/
structure Config where
  DataSources : List String
  TargetRate : ℤ
  Duration : ℤ
  VerboseLogging : Bool
  SaveMetrics : Bool
  MetricsFile : String
  ConcurrencyFactor : ℤ
  UseRandomization : Bool
  RequestTimeout : ℤ
deriving DecidableEq

/-- Consumer from the consumer package: the fields relevant to the claims
(the HTTP client, context and wait group are runtime I/O objects). -/
structure Consumer where
  config : Config
  rateLimiter : RateLimiter
deriving DecidableEq

/-- NewConsumer from src/unnamed/part_001 lines 211-240: builds the client
and the rate limiter and returns the consumer with a nil error — there is
no validation branch, so the error component is always none. -/
def NewConsumer (config : Config) (now : ℤ) : Consumer × Option String :=
  ({ config := config, rateLimiter := NewRateLimiter config.TargetRate now }, none)

/-- The initial source selection performed by Consumer.worker
(src/unnamed/part_001 lines 74-96): sourceIndex := id % len(sources).
Go panics on a modulo by zero (empty source list); the panic is embedded
as none. -/
def workerSourceIndex (sources : List String) (id : ℕ) : Option ℕ :=
  if sources.length = 0 then none else some (id % sources.length)

/-! ## Helper lemmas -/

theorem GetStats_BytesTransferred (m : Collector) (now : ℤ) :
    (m.GetStats now).BytesTransferred = m.bytesTransferred := rfl

theorem foldl_AddBytes_bytesTransferred (calls : List ℤ) :
    ∀ s : Collector,
      (calls.foldl Collector.AddBytes s).bytesTransferred =
        s.bytesTransferred + calls.sum := by
  induction calls with
  | nil => intro s; simp
  | cons n rest ih =>
      intro s
      simp only [List.foldl_cons, List.sum_cons, ih, Collector.AddBytes]
      ring

theorem takeLast_length_le {α : Type} (n : ℕ) (l : List α) :
    (takeLast n l).length ≤ n := by
  simp only [takeLast, List.length_drop]
  omega

theorem takeLast_snoc {α : Type} (l : List α) (a : α) :
    takeLast 60 (l ++ [a]) =
      (if 60 ≤ (takeLast 60 l).length then (takeLast 60 l).tail
        else takeLast 60 l) ++ [a] := by
  by_cases h : 60 ≤ l.length
  · have hlen : (takeLast 60 l).length = 60 := by
      simp only [takeLast, List.length_drop]
      omega
    rw [if_pos hlen.ge]
    simp only [takeLast]
    rw [List.tail_drop, List.length_append, List.length_singleton,
      List.drop_append_of_le_length (show l.length + 1 - 60 ≤ l.length by omega),
      show l.length + 1 - 60 = l.length - 60 + 1 by omega]
  · have h0 : takeLast 60 l = l := by
      rw [takeLast, show l.length - 60 = 0 by omega, List.drop_zero]
    rw [h0, if_neg (show ¬ 60 ≤ l.length by omega), takeLast,
      List.length_append, List.length_singleton,
      show l.length + 1 - 60 = 0 by omega, List.drop_zero]

theorem sampleTick_historyLimit (m : Collector) (now : ℤ) :
    (m.sampleMetricsTick now).1.historyLimit = m.historyLimit := by
  simp only [Collector.sampleMetricsTick]
  split_ifs <;> rfl

theorem stepLog_fst_historyLimit (x : Collector × List RatePoint) (e : CEvent) :
    (stepLog x e).1.historyLimit = x.1.historyLimit := by
  cases e with
  | add n => rfl
  | tick now => exact sampleTick_historyLimit x.1 now

theorem stepLog_history (x : Collector × List RatePoint) (e : CEvent)
    (h60 : x.1.historyLimit = 60) (hh : x.1.rateHistory = takeLast 60 x.2) :
    (stepLog x e).1.rateHistory = takeLast 60 (stepLog x e).2 := by
  cases e with
  | add n => simpa [stepLog, Collector.AddBytes] using hh
  | tick now =>
      simp only [stepLog, Collector.sampleMetricsTick]
      by_cases h1 : x.1.running = true
      · rw [if_pos h1]
        by_cases h2 : 0 < ((now - x.1.lastSample : ℤ) : ℚ) / 1000000000
        · rw [if_pos h2]
          simp only [Option.toList_some]
          rw [h60, hh]
          exact (takeLast_snoc x.2 _).symm
        · rw [if_neg h2]
          simpa using hh
      · rw [if_neg h1]
        simpa using hh

theorem runEventsLog_history (evs : List CEvent) :
    ∀ x : Collector × List RatePoint, x.1.historyLimit = 60 →
      x.1.rateHistory = takeLast 60 x.2 →
      (runEventsLog x evs).1.historyLimit = 60 ∧
        (runEventsLog x evs).1.rateHistory = takeLast 60 (runEventsLog x evs).2 := by
  induction evs with
  | nil => exact fun x h60 hh => ⟨h60, hh⟩
  | cons e rest ih =>
      intro x h60 hh
      have h60' : (stepLog x e).1.historyLimit = 60 := by
        rw [stepLog_fst_historyLimit]; exact h60
      exact ih (stepLog x e) h60' (stepLog_history x e h60 hh)

theorem sampleTick_peak_mono (m : Collector) (now : ℤ) :
    m.peakRate ≤ (m.sampleMetricsTick now).1.peakRate := by
  simp only [Collector.sampleMetricsTick]
  by_cases h1 : m.running = true
  · rw [if_pos h1]
    by_cases h2 : 0 < ((now - m.lastSample : ℤ) : ℚ) / 1000000000
    · rw [if_pos h2]
      dsimp only
      split_ifs with h3
      · exact le_of_lt h3
      · exact le_refl _
    · rw [if_neg h2]
  · rw [if_neg h1]

theorem stepLog_peak_mono (x : Collector × List RatePoint) (e : CEvent) :
    x.1.peakRate ≤ (stepLog x e).1.peakRate := by
  cases e with
  | add n => exact le_refl _
  | tick now => exact sampleTick_peak_mono x.1 now

theorem runEventsLog_peak_mono (evs : List CEvent) :
    ∀ x : Collector × List RatePoint,
      x.1.peakRate ≤ (runEventsLog x evs).1.peakRate := by
  induction evs with
  | nil => exact fun x => le_refl _
  | cons e rest ih =>
      intro x
      exact le_trans (stepLog_peak_mono x e) (ih (stepLog x e))

theorem sampleTick_log_bound (m : Collector) (now : ℤ) (p : RatePoint)
    (hp : p ∈ ((m.sampleMetricsTick now).2).toList) :
    p.RateMBPS ≤ (m.sampleMetricsTick now).1.peakRate := by
  simp only [Collector.sampleMetricsTick] at hp ⊢
  by_cases h1 : m.running = true
  · rw [if_pos h1] at hp ⊢
    by_cases h2 : 0 < ((now - m.lastSample : ℤ) : ℚ) / 1000000000
    · rw [if_pos h2] at hp ⊢
      simp only [Option.toList_some, List.mem_singleton] at hp
      subst hp
      dsimp only
      split_ifs with h3
      · exact le_refl _
      · exact le_of_not_lt h3
    · rw [if_neg h2] at hp
      simp at hp
  · rw [if_neg h1] at hp
    simp at hp

theorem stepLog_log_bound (x : Collector × List RatePoint) (e : CEvent)
    (hb : ∀ p ∈ x.2, p.RateMBPS ≤ x.1.peakRate) :
    ∀ p ∈ (stepLog x e).2, p.RateMBPS ≤ (stepLog x e).1.peakRate := by
  cases e with
  | add n => exact hb
  | tick now =>
      intro p hp
      simp only [stepLog, List.mem_append] at hp
      rcases hp with hp | hp
      · exact le_trans (hb p hp) (sampleTick_peak_mono x.1 now)
      · exact sampleTick_log_bound x.1 now p hp

theorem runEventsLog_log_bound (evs : List CEvent) :
    ∀ x : Collector × List RatePoint,
      (∀ p ∈ x.2, p.RateMBPS ≤ x.1.peakRate) →
      ∀ p ∈ (runEventsLog x evs).2,
        p.RateMBPS ≤ (runEventsLog x evs).1.peakRate := by
  induction evs with
  | nil => exact fun x hb => hb
  | cons e rest ih =>
      intro x hb
      exact ih (stepLog x e) (stepLog_log_bound x e hb)

/-! ## Claim theorems -/

/-- C1: for every finite sequence of AddBytes calls with non-negative
increments — every interleaving of any number of concurrent callers is such
a sequence, each atomic add being one indivisible step — the
BytesTransferred field of the Stats returned by a subsequent GetStats is
the exact sum of the increments: no increment is lost. -/
theorem c1_getStats_total_is_sum (t0 now : ℤ) (calls : List ℤ)
    (_hpos : ∀ x ∈ calls, 0 ≤ x) :
    ((calls.foldl Collector.AddBytes (NewCollector.Start t0)).GetStats
        now).BytesTransferred = calls.sum := by
  rw [GetStats_BytesTransferred, foldl_AddBytes_bytesTransferred]
  show (0 : ℤ) + calls.sum = calls.sum
  ring

/-- Witness for C1 at the concrete call sequence [3, 4, 5]. -/
theorem c1_getStats_total_is_sum_witness :
    ((([3, 4, 5] : List ℤ).foldl Collector.AddBytes (NewCollector.Start 0)).GetStats
        7).BytesTransferred = ([3, 4, 5] : List ℤ).sum :=
  c1_getStats_total_is_sum 0 7 [3, 4, 5] (by decide)

/-- C3: the code performs no configuration validation — NewConsumer returns
a nil error even for an empty source list, and the worker's initial source
selection id % len(sources) then divides by zero (a Go runtime panic,
embedded as none), instead of the construction refusing to start. -/
theorem c3_newConsumer_accepts_empty_sources :
    (NewConsumer
        { DataSources := []
        , TargetRate := 1024
        , Duration := 0
        , VerboseLogging := false
        , SaveMetrics := true
        , MetricsFile := ""
        , ConcurrencyFactor := 4
        , UseRandomization := true
        , RequestTimeout := 60 } 0).2 = none
      ∧ workerSourceIndex [] 0 = none :=
  ⟨rfl, rfl⟩

/-- C4: after Start, across any interleaving of AddBytes calls and sampler
ticks, the rate history never holds more than 60 entries (the
historyLimit), and it always consists of exactly the most recently recorded
samples in recording order — so when a tick records while the history is at
capacity, the oldest entry is the one evicted (FIFO). -/
theorem c4_rateHistory_bounded_fifo (t0 : ℤ) (evs : List CEvent) :
    (runEventsLog (NewCollector.Start t0, []) evs).1.rateHistory.length ≤ 60 ∧
      (runEventsLog (NewCollector.Start t0, []) evs).1.rateHistory =
        takeLast 60 (runEventsLog (NewCollector.Start t0, []) evs).2 := by
  have h := runEventsLog_history evs (NewCollector.Start t0, []) rfl rfl
  refine ⟨?_, h.2⟩
  rw [h.2]
  exact takeLast_length_le 60 _

/-- C5: after Start, peakRate never decreases across any further sequence of
events, and it dominates the rate of every sample the sampler has recorded
since Start (whether or not the sample is still retained in the history). -/
theorem c5_peakRate_monotone_dominates (t0 : ℤ) (l1 l2 : List CEvent)
    (p : RatePoint)
    (hp : p ∈ (runEventsLog (NewCollector.Start t0, []) (l1 ++ l2)).2) :
    (runEventsLog (NewCollector.Start t0, []) l1).1.peakRate ≤
        (runEventsLog (NewCollector.Start t0, []) (l1 ++ l2)).1.peakRate ∧
      p.RateMBPS ≤
        (runEventsLog (NewCollector.Start t0, []) (l1 ++ l2)).1.peakRate := by
  constructor
  · simp only [runEventsLog]
    rw [List.foldl_append]
    exact runEventsLog_peak_mono l2 _
  · exact runEventsLog_log_bound (l1 ++ l2) _ (by simp) p hp

/-- Witness for C5: one sample — 1048576 bytes over the 10 s tick is
1048576 / 10 / 2^20 * 60 = 6 MB/min — is recorded, bounded by the peak. -/
theorem c5_peakRate_monotone_dominates_witness :
    (runEventsLog (NewCollector.Start 0, []) [CEvent.add 1048576]).1.peakRate ≤
        (runEventsLog (NewCollector.Start 0, [])
            ([CEvent.add 1048576] ++ [CEvent.tick 10000000000])).1.peakRate ∧
      ({ Timestamp := 10000000000, RateMBPS := 6 } : RatePoint).RateMBPS ≤
        (runEventsLog (NewCollector.Start 0, [])
            ([CEvent.add 1048576] ++ [CEvent.tick 10000000000])).1.peakRate :=
  c5_peakRate_monotone_dominates 0 [CEvent.add 1048576] [CEvent.tick 10000000000]
    { Timestamp := 10000000000, RateMBPS := 6 }
    (by norm_num [runEventsLog, stepLog, Collector.sampleMetricsTick,
      Collector.AddBytes, Collector.Start, NewCollector])

/-- C6: GetStats returns as CurrentRate the rate of the most recent history
entry when the history is non-empty, and otherwise, when the elapsed time
since startTime is positive, the whole-run estimate
bytes / elapsedSeconds * 60 / 2^20 (MB/min). -/
theorem c6_getStats_currentRate (m : Collector) (now : ℤ) :
    (∀ p : RatePoint, m.rateHistory.getLast? = some p →
        (m.GetStats now).CurrentRate = p.RateMBPS) ∧
      (m.rateHistory = [] → 0 < now - m.startTime →
        (m.GetStats now).CurrentRate =
          (m.bytesTransferred : ℚ) / (((now - m.startTime : ℤ) : ℚ) / 1000000000)
            * 60 / 2 ^ 20) := by
  constructor
  · intro p hp
    have hne : m.rateHistory ≠ [] := by
      intro h0
      rw [h0] at hp
      simp at hp
    have hlen : 0 < m.rateHistory.length := List.length_pos.mpr hne
    simp [Collector.GetStats, hlen, hp]
  · intro h0 ht
    have hlen : ¬ 0 < m.rateHistory.length := by simp [h0]
    have hsec : 0 < ((now - m.startTime : ℤ) : ℚ) / 1000000000 := by
      have : (0 : ℚ) < ((now - m.startTime : ℤ) : ℚ) := by
        exact_mod_cast ht
      positivity
    simp only [Collector.GetStats, hlen, if_false, hsec, if_true]
    rw [div_div]
    norm_num

/-- Witness for C6: most recent entry picked from a non-empty history, and
the whole-run estimate on an empty history (1048576 bytes in 2 seconds is
1048576 / 2 * 60 / 2^20 = 30 MB/min). -/
theorem c6_getStats_currentRate_witness :
    (({ NewCollector with
          rateHistory := [{ Timestamp := 5, RateMBPS := 42 }] } : Collector).GetStats
        9).CurrentRate = (42 : ℚ) ∧
      (({ NewCollector with bytesTransferred := 1048576 } : Collector).GetStats
          2000000000).CurrentRate =
        ((1048576 : ℤ) : ℚ) / (((2000000000 - (0 : ℤ) : ℤ) : ℚ) / 1000000000)
          * 60 / 2 ^ 20 :=
  ⟨(c6_getStats_currentRate
        { NewCollector with rateHistory := [{ Timestamp := 5, RateMBPS := 42 }] }
        9).1 { Timestamp := 5, RateMBPS := 42 } rfl,
    (c6_getStats_currentRate
        { NewCollector with bytesTransferred := 1048576 } 2000000000).2 rfl
      (by decide)⟩

/-- C7: when more than one second has elapsed since the window start, Allow
resets the window — lastCheck becomes now, bytesThisPeriod becomes 0 (the
bytes argument is not added) — and returns a zero wait. -/
theorem c7_allow_window_reset (r : RateLimiter) (bytes now : ℤ)
    (h : 1000000000 < now - r.lastCheck) :
    r.Allow bytes now = (0, { r with bytesThisPeriod := 0, lastCheck := now }) := by
  simp [RateLimiter.Allow, h]

/-- Witness for C7: limiter with window start 0 polled at 1.5 s with a large
bytes argument. -/
theorem c7_allow_window_reset_witness :
    RateLimiter.Allow
        { targetBytesPerSecond := 17476, lastCheck := 0, bytesThisPeriod := 123 }
        999999 1500000000 =
      (0, { targetBytesPerSecond := 17476, lastCheck := 1500000000,
            bytesThisPeriod := 0 }) :=
  c7_allow_window_reset
    { targetBytesPerSecond := 17476, lastCheck := 0, bytesThisPeriod := 123 }
    999999 1500000000 (by decide)

/-- C8: with a positive target and no window reset, Allow returns the wait
(bytesThisPeriod - allowed) / targetBytesPerSecond seconds (here in ns,
truncated as Go does) clamped to at most 500 ms when the accumulated
bytesThisPeriod exceeds allowed = targetBytesPerSecond * elapsed seconds,
and zero otherwise; and in every case the returned wait is at most 500 ms. -/
theorem c8_allow_wait_clamped_500ms (r : RateLimiter) (bytes now : ℤ)
    (_htarget : 0 < r.targetBytesPerSecond) :
    (¬ 1000000000 < now - r.lastCheck →
        (ratTrunc ((r.targetBytesPerSecond : ℚ) *
              (((now - r.lastCheck : ℤ) : ℚ) / 1000000000)) <
            r.bytesThisPeriod + bytes →
          (r.Allow bytes now).1 =
            min
              (ratTrunc
                (((r.bytesThisPeriod + bytes -
                      ratTrunc ((r.targetBytesPerSecond : ℚ) *
                        (((now - r.lastCheck : ℤ) : ℚ) / 1000000000)) : ℤ) : ℚ) /
                  (r.targetBytesPerSecond : ℚ) * 1000000000))
              500000000) ∧
        (r.bytesThisPeriod + bytes ≤
            ratTrunc ((r.targetBytesPerSecond : ℚ) *
              (((now - r.lastCheck : ℤ) : ℚ) / 1000000000)) →
          (r.Allow bytes now).1 = 0)) ∧
      (r.Allow bytes now).1 ≤ 500000000 := by
  constructor
  · intro hel
    constructor
    · intro hex
      simp only [RateLimiter.Allow, if_neg hel, if_pos hex]
      rcases le_or_lt
          (ratTrunc
            (((r.bytesThisPeriod + bytes -
                  ratTrunc ((r.targetBytesPerSecond : ℚ) *
                    (((now - r.lastCheck : ℤ) : ℚ) / 1000000000)) : ℤ) : ℚ) /
              (r.targetBytesPerSecond : ℚ) * 1000000000))
          500000000 with h | h
      · rw [if_neg (not_lt.mpr h), min_eq_left h]
      · rw [if_pos h, min_eq_right (le_of_lt h)]
    · intro hle
      simp only [RateLimiter.Allow, if_neg hel, if_neg (not_lt.mpr hle)]
  · simp only [RateLimiter.Allow]
    split_ifs with h1 h2 h3
    · norm_num
    · norm_num
    · exact le_of_not_lt h3
    · norm_num

/-- Witness for C8: target 1000 bytes/s, window started at 0, polled at
0.5 s.  With 1000000 bytes the allowance (500 bytes) is exceeded and the
clamped wait is returned; with 100 bytes it is not and the wait is zero. -/
theorem c8_allow_wait_clamped_500ms_witness :
    (RateLimiter.Allow
          { targetBytesPerSecond := 1000, lastCheck := 0, bytesThisPeriod := 0 }
          1000000 500000000).1 =
        min
          (ratTrunc
            ((((0 : ℤ) + 1000000 -
                  ratTrunc (((1000 : ℤ) : ℚ) *
                    (((500000000 - (0 : ℤ) : ℤ) : ℚ) / 1000000000)) : ℤ) : ℚ) /
              ((1000 : ℤ) : ℚ) * 1000000000))
          500000000 ∧
      (RateLimiter.Allow
          { targetBytesPerSecond := 1000, lastCheck := 0, bytesThisPeriod := 0 }
          100 500000000).1 = 0 ∧
      (RateLimiter.Allow
          { targetBytesPerSecond := 1000, lastCheck := 0, bytesThisPeriod := 0 }
          1000000 500000000).1 ≤ 500000000 :=
  ⟨((c8_allow_wait_clamped_500ms
        { targetBytesPerSecond := 1000, lastCheck := 0, bytesThisPeriod := 0 }
        1000000 500000000 (by decide)).1 (by decide)).1
      (by norm_num [ratTrunc]),
    ((c8_allow_wait_clamped_500ms
        { targetBytesPerSecond := 1000, lastCheck := 0, bytesThisPeriod := 0 }
        100 500000000 (by decide)).1 (by decide)).2
      (by norm_num [ratTrunc]),
    (c8_allow_wait_clamped_500ms
        { targetBytesPerSecond := 1000, lastCheck := 0, bytesThisPeriod := 0 }
        1000000 500000000 (by decide)).2⟩

/-- C9: Start on a running collector is a complete no-op (all fields kept,
no second sampler launched); on a stopped collector it resets the counters,
sets running and launches exactly one background sampler. -/
theorem c9_start_idempotent_when_running (s : Collector) (now : ℤ) :
    (s.running = true → s.Start now = s) ∧
      (s.running = false → s.Start now =
        { s with
          startTime := now
          , lastSample := now
          , bytesTransferred := 0
          , lastBytes := 0
          , peakRate := 0
          , rateHistory := []
          , running := true
          , samplersLaunched := s.samplersLaunched + 1 }) := by
  constructor <;> intro h <;> simp [Collector.Start, h]

/-- Witness for C9: a running collector is left untouched; a fresh collector
is reset and started. -/
theorem c9_start_idempotent_when_running_witness :
    ({ NewCollector with running := true } : Collector).Start 5 =
        { NewCollector with running := true } ∧
      NewCollector.Start 5 =
        { NewCollector with
          startTime := 5
          , lastSample := 5
          , bytesTransferred := 0
          , lastBytes := 0
          , peakRate := 0
          , rateHistory := []
          , running := true
          , samplersLaunched := NewCollector.samplersLaunched + 1 } :=
  ⟨(c9_start_idempotent_when_running { NewCollector with running := true } 5).1 rfl,
    (c9_start_idempotent_when_running NewCollector 5).2 rfl⟩

/-- C10: AddBytes validates nothing — a negative argument strictly decreases
the counter reported by GetStats, and the reported total is non-decreasing
precisely under the precondition that increments are non-negative. -/
theorem c10_addBytes_no_validation (s : Collector) (n now : ℤ) :
    (n < 0 → ((s.AddBytes n).GetStats now).BytesTransferred <
        (s.GetStats now).BytesTransferred) ∧
      (0 ≤ n → (s.GetStats now).BytesTransferred ≤
        ((s.AddBytes n).GetStats now).BytesTransferred) := by
  simp only [GetStats_BytesTransferred, Collector.AddBytes]
  constructor <;> intro h <;> omega

/-- Witness for C10: adding -5 strictly decreases the reported total;
adding 7 does not decrease it. -/
theorem c10_addBytes_no_validation_witness :
    ((NewCollector.AddBytes (-5)).GetStats 0).BytesTransferred <
        (NewCollector.GetStats 0).BytesTransferred ∧
      (NewCollector.GetStats 0).BytesTransferred ≤
        ((NewCollector.AddBytes 7).GetStats 0).BytesTransferred :=
  ⟨(c10_addBytes_no_validation NewCollector (-5) 0).1 (by decide),
    (c10_addBytes_no_validation NewCollector 7 0).2 (by decide)⟩

end DataConsumer
